import Mathlib

/-!
Shallow embedding of the skill orchestration core of `agno-agent-os-with-ui`:
the keyword router (`src/core/skills/router.py`), the skill registry
(`src/core/skills/registry.py`), the orchestrator (`src/core/orchestrator.py`)
and the self-healing validation loop (`src/core/validation_loop.py`).

Modelling conventions:
* Python `float` scores are modelled over `ℚ` (the literals `3.0`, `0.05`,
  `2.5`, `0.82`, `1.5`, `2.0`, `0.25` become the exact rationals they denote).
* `difflib.SequenceMatcher(None, a, b).ratio()` is an external stdlib
  collaborator; it is threaded through as an explicit parameter
  `ratio : String → String → ℚ`.
* Python's `set` of message tokens has unspecified iteration order; the
  embedding fixes the deterministic first-occurrence order (`dedupFirst`).
* Filesystem reads are threaded through as explicit function parameters.
-/

namespace AgnoOS

/-- Python word character for `\w` in the token pattern (ASCII model):
letters, digits, or underscore. -/
def isWordChar (c : Char) : Bool := c.isAlphanum || c = '_'

/-- Character admitted inside a token by the pattern `\b[\w-]+\b`. -/
def isTokenChar (c : Char) : Bool := isWordChar c || c = '-'

/-- Split a character list at every separator character (separator chars are
dropped; empty pieces between consecutive separators are kept, as with
`String.split`). -/
def splitCharsAux (p : Char → Bool) : List Char → List Char → List (List Char)
  | [], acc => [acc.reverse]
  | c :: cs, acc =>
    if p c then acc.reverse :: splitCharsAux p cs []
    else splitCharsAux p cs (c :: acc)

/-- Split a string's characters at separators satisfying `p`. -/
def splitChars (p : Char → Bool) (s : String) : List (List Char) :=
  splitCharsAux p s.toList []

/-- Python `str.lower()` (ASCII model): lowercase every character. -/
def lowerStr (s : String) : String := String.mk (s.toList.map Char.toLower)

/-- Python `str.strip()`: drop whitespace from both ends. -/
def pyStrip (s : String) : String :=
  String.mk (((s.toList.dropWhile Char.isWhitespace).reverse.dropWhile
    Char.isWhitespace).reverse)

/-- Drop leading hyphens of a character list. -/
def dropLeadHyphens (l : List Char) : List Char := l.dropWhile (fun c => c = '-')

/-- Strip hyphens from both ends (the `\b` anchors of the token pattern
reject leading and trailing hyphens of a `[\w-]+` run). -/
def trimHyphensL (l : List Char) : List Char :=
  (dropLeadHyphens (dropLeadHyphens l).reverse).reverse

/-- Python `re.findall(r"\b[\w-]+\b", text)`: maximal runs of token characters,
with leading and trailing hyphens stripped by the word-boundary anchors;
runs of hyphens alone yield no token. -/
def tokenize (text : String) : List String :=
  (((splitChars (fun c => !(isTokenChar c)) text).map
    (fun piece => String.mk (trimHyphensL piece))).filter (fun t => t ≠ ""))

/-- Whether `needle` is a prefix of `hay` (character lists). -/
def isPrefixL : List Char → List Char → Bool
  | [], _ => true
  | _ :: _, [] => false
  | a :: as, b :: bs => a = b && isPrefixL as bs

/-- Whether `needle` occurs as a contiguous substring of `hay` (character lists),
Python's `needle in hay` on strings. -/
def isSubL (needle : List Char) : List Char → Bool
  | [] => isPrefixL needle []
  | b :: bs => isPrefixL needle (b :: bs) || isSubL needle bs

/-- Python's substring test `needle in hay`. -/
def isSubstring (needle hay : String) : Bool := isSubL needle.toList hay.toList

/-- Python `str.split()` with no argument: split on whitespace runs,
discarding empty pieces. -/
def splitWs (s : String) : List String :=
  ((splitChars Char.isWhitespace s).map String.mk).filter (fun t => t ≠ "")

/-- First-occurrence deduplication, the embedding's deterministic stand-in
for Python's `set(tokens)` iteration order. -/
def dedupFirstAux (seen : List String) : List String → List String
  | [] => []
  | x :: xs =>
    if x ∈ seen then dedupFirstAux seen xs
    else x :: dedupFirstAux (x :: seen) xs

/-- The message token set, in first-occurrence order. -/
def dedupFirst (l : List String) : List String := dedupFirstAux [] l

/-! ## Data model (`src/core/skills/models.py`) -/

/-- The `SkillMetadata` dataclass: lightweight metadata loaded from a manifest.
Paths are modelled as strings. -/
structure SkillMetadata where
  id : String
  name : String
  description : String
  root : String
  tags : List String := []
  match_terms : List String := []
  version : Option String := none
  instructions_relpath : String := "SKILL.md"
  tools_relpath : String := "tools"
  refs_relpath : String := "refs"
  deriving Repr, DecidableEq

/-! ## Router (`src/core/skills/router.py`) -/

/-- The inner fuzzy loop of `SkillRouter._score`:
`for token in token_set: similarity = ratio(term, token); if similarity >=
0.82: score += 1.5 * similarity; break` — first qualifying token wins. -/
def fuzzyScan (ratio : String → String → ℚ) (term : String) : List String → ℚ
  | [] => 0
  | token :: rest =>
    let similarity := ratio term token
    if (82 / 100 : ℚ) ≤ similarity then (3 / 2) * similarity
    else fuzzyScan ratio term rest

/-- One iteration of the `for term in metadata.match_terms` loop of
`SkillRouter._score`: empty terms are skipped; a substring match adds
`3.0 + 0.05*len(term)` and moves on; else an exact token-set member adds
`2.5`; otherwise the fuzzy scan over the token set runs. -/
def scoreTermStep (ratio : String → String → ℚ) (normalized_message : String)
    (token_set : List String) (score : ℚ) (term : String) : ℚ :=
  if term = "" then score
  else if isSubstring term normalized_message then
    score + (3 + (5 / 100) * (term.length : ℚ))
  else if term ∈ token_set then score + 5 / 2
  else score + fuzzyScan ratio term token_set

/-- One iteration of the `for tag in metadata.tags` loop of `_score`:
substring match adds `2.0`, else a positive token count adds `1.5`. -/
def scoreTagStep (normalized_message : String) (tokens : List String)
    (score : ℚ) (tag : String) : ℚ :=
  if tag = "" then score
  else if isSubstring (lowerStr tag) normalized_message then score + 2
  else if 0 < tokens.count (lowerStr tag) then score + 3 / 2
  else score

/-- One iteration of the description-keyword loop of `_score`: each
description word with positive message-token count adds `0.25`. -/
def scoreDescStep (tokens : List String) (score : ℚ) (keyword : String) : ℚ :=
  if 0 < tokens.count keyword then score + 1 / 4 else score

/-- Source `SkillRouter._score`: additive scoring of one skill against the
normalized message, its token list and its token set. -/
def score (ratio : String → String → ℚ) (metadata : SkillMetadata)
    (normalized_message : String) (tokens : List String)
    (token_set : List String) : ℚ :=
  let s1 := metadata.match_terms.foldl
    (scoreTermStep ratio normalized_message token_set) 0
  let s2 := metadata.tags.foldl (scoreTagStep normalized_message tokens) s1
  (splitWs (lowerStr metadata.description)).foldl (scoreDescStep tokens) s2

/-- Descending stable insertion by score for `scored.sort(key=·[0], reverse=True)`. -/
def insertDesc (x : ℚ × SkillMetadata) : List (ℚ × SkillMetadata) → List (ℚ × SkillMetadata)
  | [] => [x]
  | y :: ys => if y.1 ≤ x.1 then x :: y :: ys else y :: insertDesc x ys

/-- Sort a scored list by score descending (stable, as Python's `list.sort`). -/
def sortDesc : List (ℚ × SkillMetadata) → List (ℚ × SkillMetadata)
  | [] => []
  | x :: xs => insertDesc x (sortDesc xs)

/-- The tag pre-filter of `SkillRouter.route`: skip a skill when required
tags are present and do not intersect the skill's lowercased tags. -/
def tagFilterSkip (required_tags : Option (List String)) (metadata : SkillMetadata) : Bool :=
  match required_tags with
  | none => false
  | some rts => !(metadata.tags.any (fun t => lowerStr t ∈ rts))

/-- Source `SkillRouter.route` over a catalog (the registry's `list_metadata()`):
empty message short-circuits; tag filter; scores strictly above `min_score`
are retained, sorted descending, truncated to `limit`. -/
def route (ratio : String → String → ℚ) (catalog : List SkillMetadata)
    (message : String) (limit : Option Nat) (tags : Option (List String))
    (min_score : ℚ) : List SkillMetadata :=
  if message = "" then []
  else
    let normalized := lowerStr message
    let tokens := tokenize normalized
    let token_set := dedupFirst tokens
    let required_tags : Option (List String) :=
      match tags with
      | some ts => if ts = [] then none else some (ts.map lowerStr)
      | none => none
    let scored := catalog.filterMap (fun metadata =>
      if tagFilterSkip required_tags metadata then none
      else
        let s := score ratio metadata normalized tokens token_set
        if s ≤ min_score then none else some (s, metadata))
    let sorted := sortDesc scored
    (match limit with
     | some n => sorted.take n
     | none => sorted).map Prod.snd

/-! ## Tool objects and entrypoint calling convention
(`src/shared/tools/references.py`, `src/core/orchestrator.py`)

`search_skill_references` is declared as
`def search_skill_references(agent, query: str, skill_references: list | None = None)`.
`SkillOrchestrator._bind_references_to_tools` replaces a tool's entrypoint by
`def wrapped_fn(agent, query: str) -> str: return original_fn(agent, query,
skill_references=references)`, closing over the orchestrator's single mutable
`collected_references` list.  Because every wrapper closes over that same list
object, the value a wrapper passes on at call time is the final collected
list; the embedding threads that final list as the `cell` argument of
`invokeEntrypoint`. -/

/-- The callable stored in a tool's `entrypoint` attribute: either the
original decorated search function, a `wrapped_fn` produced by
`_bind_references_to_tools`, or some unrelated callable. -/
inductive Entrypoint where
  | searchOrig : Entrypoint
  | wrapped (inner : Entrypoint) : Entrypoint
  | unrelated (tag : String) : Entrypoint
  deriving Repr, DecidableEq

/-- Outcome of calling an entrypoint: the original search function runs
with a query and the `skill_references` argument it received (`none` models
Python `None`, the parameter's default), or the call raises `TypeError`
because a keyword argument was passed to a function that does not accept
it, or an unrelated callable ran. -/
inductive CallResult where
  | ranSearch (query : String) (skill_references : Option (List String)) : CallResult
  | typeError : CallResult
  | ranOther (tag : String) : CallResult
  deriving Repr, DecidableEq

/-- Python call semantics of the entrypoints above.  `cell` is the current
contents of the `collected_references` list every wrapper closed over;
`kw` is the `skill_references=` keyword argument of this call, if any.
`search_skill_references(agent, query, skill_references=None)` accepts the
keyword; `wrapped_fn(agent, query)` does not — passing it raises
`TypeError` — and itself calls the wrapped function with
`skill_references=references`. -/
def invokeEntrypoint (cell : List String) : Entrypoint → String → Option (List String) → CallResult
  | .searchOrig, q, kw => .ranSearch q kw
  | .wrapped inner, q, none => invokeEntrypoint cell inner q (some cell)
  | .wrapped _, _, some _ => .typeError
  | .unrelated tag, _, _ => .ranOther tag

/-- A loaded tool object: a declared `name` and an optional callable
`entrypoint` attribute. -/
structure Tool where
  name : String
  entrypoint : Option Entrypoint := none
  deriving Repr, DecidableEq

/-! ## Registry (`src/core/skills/registry.py`) -/

/-- A parsed `skill.yaml` mapping: each field is `some` exactly when the
key is present (scalars already coerced to strings, as `str(...)` does). -/
structure Manifest where
  id : Option String := none
  name : Option String := none
  description : Option String := none
  tags : Option (List String) := none
  match_terms : Option (List String) := none
  version : Option String := none
  instructions : Option String := none
  tools_path : Option String := none
  refs_path : Option String := none
  deriving Repr, DecidableEq

/-- Errors raised by the registry: `ValueError` for a manifest missing
`id`, `ValueError` for a duplicate skill id, `FileNotFoundError` for a
missing instructions file, `KeyError` for an unknown skill id. -/
inductive RegError where
  | missingId (manifest_dir : String)
  | duplicateId (id : String)
  | fileNotFound (path : String)
  | keyError (id : String)
  deriving Repr, DecidableEq

/-- Source `SkillRegistry._parse_manifest`: requires only that `id` be present;
`name` defaults to the id, `description` to `""`, `tags`/`match_terms` to
empty (match terms lower-cased), `version` to `None` (empty string is
falsy), and the three relative paths to `SKILL.md`, `tools`, `refs`.
No slug-pattern check is performed here. -/
def parse_manifest (manifest_dir : String) (data : Manifest) : Except RegError SkillMetadata :=
  match data.id with
  | none => .error (.missingId manifest_dir)
  | some idv =>
    .ok {
      id := idv
      name := data.name.getD idv
      description := data.description.getD ""
      root := manifest_dir
      tags := data.tags.getD []
      match_terms := (data.match_terms.getD []).map lowerStr
      version := match data.version with
        | some v => if v = "" then none else some v
        | none => none
      instructions_relpath := data.instructions.getD "SKILL.md"
      tools_relpath := data.tools_path.getD "tools"
      refs_relpath := data.refs_path.getD "refs" }

/-- The slug pattern `[a-z][a-z0-9_]*` of the spec and of
`SkillMetadataModel`'s `Field(..., pattern=r"^[a-z][a-z0-9_]*$")`. -/
def isSlug (s : String) : Bool :=
  match s.toList with
  | [] => false
  | c :: cs => c.isLower && cs.all (fun d => d.isLower || d.isDigit || d = '_')

/-- The `validate_id` field validator of `SkillMetadataModel`
(`src/core/skills/validation.py`): `value.replace("_", "").isalnum()`
(Python `str.isalnum` is false on the empty string). -/
def validate_id_check (s : String) : Bool :=
  let r := s.toList.filter (fun c => c ≠ '_')
  !r.isEmpty && r.all Char.isAlphanum

/-- The full id validation of the pydantic `SkillMetadataModel`: the field
pattern together with the `validate_id` validator.  This model is defined
in `src/core/skills/validation.py` but is never invoked by
`SkillRegistry` discovery. -/
def skillMetadataModelIdOk (s : String) : Bool := isSlug s && validate_id_check s

/-- An immediate subdirectory of the skills root: its name, and the parsed
`skill.yaml` when that manifest file exists. -/
structure SkillDir where
  name : String
  manifest : Option Manifest := none
  deriving Repr, DecidableEq

/-- Lexicographic order on character lists (for `sorted(root.iterdir())`). -/
def lexLe : List Char → List Char → Bool
  | [], _ => true
  | _ :: _, [] => false
  | a :: as, b :: bs =>
    if a = b then lexLe as bs else decide (a < b)

/-- Insert a directory into a name-sorted list. -/
def insertDir (d : SkillDir) : List SkillDir → List SkillDir
  | [] => [d]
  | e :: es => if lexLe d.name.toList e.name.toList then d :: e :: es
               else e :: insertDir d es

/-- Python `sorted(self._root.iterdir())`: subdirectories in lexicographic order. -/
def sortDirs : List SkillDir → List SkillDir
  | [] => []
  | d :: ds => insertDir d (sortDirs ds)

/-- The filesystem as seen by the registry: the immediate subdirectories of
the skills root, plus readers for instruction files and the tool/reference
loaders (`load_tools_from_dir` / `load_references_from_dir`), which map a
skill root and relative path to loaded assets; a missing directory yields
an empty list inside those collaborators. -/
structure SkillsFS where
  dirs : List SkillDir
  readInstructions : String → String → Option String
  loadToolsDir : String → String → List Tool
  loadRefsDir : String → String → List String

/-- The catalog-building loop of `SkillRegistry._discover`: skip
subdirectories without `skill.yaml`, parse each manifest, fail fatally on a
duplicate id, insert into the catalog in discovery order. -/
def discoverAux : List SkillDir → List (String × SkillMetadata) →
    Except RegError (List (String × SkillMetadata))
  | [], catalog => .ok catalog
  | d :: rest, catalog =>
    match d.manifest with
    | none => discoverAux rest catalog
    | some data =>
      match parse_manifest d.name data with
      | .error e => .error e
      | .ok md =>
        if (catalog.find? (fun p => p.1 = md.id)).isSome then
          .error (.duplicateId md.id)
        else discoverAux rest (catalog ++ [(md.id, md)])

/-- Source `SkillRegistry._discover` from a fresh catalog. -/
def discoverRun (fs : SkillsFS) : Except RegError (List (String × SkillMetadata)) :=
  discoverAux (sortDirs fs.dirs) []

/-- The `SkillPackage` dataclass: metadata plus resolved assets. -/
structure SkillPackage where
  metadata : SkillMetadata
  instructions : String
  tools : List Tool := []
  references : List String := []
  deriving Repr, DecidableEq

/-- The registry's mutable state: the metadata catalog and the package
cache (insertion-ordered dictionaries). -/
structure RegistryState where
  catalog : List (String × SkillMetadata) := []
  package_cache : List (String × SkillPackage) := []
  deriving Repr, DecidableEq

/-- Python `dict.get` / `in` lookup on an insertion-ordered association list. -/
def dictGet? (k : String) (d : List (String × α)) : Option α :=
  (d.find? (fun p => p.1 = k)).map Prod.snd

/-- Source `SkillRegistry.__init__`: empty caches, then `_discover()`. -/
def initRegistry (fs : SkillsFS) : Except RegError RegistryState :=
  (discoverRun fs).map (fun cat => { catalog := cat, package_cache := [] })

/-- Source `SkillRegistry.reload`: clear the metadata catalog and the package
cache, then re-run discovery; the resulting state depends only on the
filesystem, never on the cleared state. -/
def registryReload (fs : SkillsFS) (_st : RegistryState) : Except RegError RegistryState :=
  initRegistry fs

/-- Source `SkillRegistry.load_skill`: return the cached package if present;
otherwise resolve metadata (`KeyError` if unknown), read the instructions
file (`FileNotFoundError` if missing, text stripped), load tools and
references through the loaders, cache and return the package. -/
def load_skill (fs : SkillsFS) (st : RegistryState) (skill_id : String) :
    Except RegError (SkillPackage × RegistryState) :=
  match dictGet? skill_id st.package_cache with
  | some pkg => .ok (pkg, st)
  | none =>
    match dictGet? skill_id st.catalog with
    | none => .error (.keyError skill_id)
    | some metadata =>
      match fs.readInstructions metadata.root metadata.instructions_relpath with
      | none => .error (.fileNotFound (metadata.root ++ "/" ++ metadata.instructions_relpath))
      | some text =>
        let pkg : SkillPackage := {
          metadata := metadata
          instructions := pyStrip text
          tools := fs.loadToolsDir metadata.root metadata.tools_relpath
          references := fs.loadRefsDir metadata.root metadata.refs_relpath }
        .ok (pkg, { st with package_cache := st.package_cache ++ [(skill_id, pkg)] })

/-! ## Orchestrator (`src/core/orchestrator.py`) -/

/-- The `AgentContext` dataclass: the orchestrator's merged output. -/
structure AgentContext where
  instructions : String
  tools : List Tool
  references : List String
  skills : List SkillMetadata
  deriving Repr, DecidableEq

/-- Source `SkillOrchestrator._bind_references_to_tools`: walk the tool list, and
at the first tool whose declared name is `search_skill_references`, replace
its callable entrypoint (when present) by the wrapper closing over the
collected-references list, then stop (`break`). -/
def bind_references_to_tools : List Tool → List Tool
  | [] => []
  | t :: rest =>
    if t.name = "search_skill_references" then
      (match t.entrypoint with
       | some ep => { t with entrypoint := some (.wrapped ep) }
       | none => t) :: rest
    else t :: bind_references_to_tools rest

/-- The environment `build_context` draws on: the cached shared prompt
(already stripped by `_load_shared_prompt`, `""` when absent), the cached
shared tools, and the registry's package resolution for the executions in
which every requested `load_skill` returns (a raising load aborts
`build_context` by propagation and produces no context). -/
structure OrchestratorEnv where
  shared_prompt : String
  shared_tools : List Tool
  loadSkillPkg : String → SkillPackage

/-- The accumulator of `build_context`'s merge loop. -/
structure BuildAcc where
  instructions_parts : List String
  collected_tools : List Tool
  collected_references : List String
  loaded_skills : List SkillMetadata
  deriving Repr, DecidableEq

/-- One iteration of `for skill_id in skill_ids` in `build_context`: load
the package, record its metadata, append non-empty instructions, extend
tools and references. -/
def buildStep (loadSkillPkg : String → SkillPackage) (acc : BuildAcc)
    (skill_id : String) : BuildAcc :=
  let package := loadSkillPkg skill_id
  { instructions_parts := acc.instructions_parts ++
      (if package.instructions ≠ "" then [package.instructions] else [])
    collected_tools := acc.collected_tools ++
      (if package.tools ≠ [] then package.tools else [])
    collected_references := acc.collected_references ++
      (if package.references ≠ [] then package.references else [])
    loaded_skills := acc.loaded_skills ++ [package.metadata] }

/-- Python `"\n\n".join(...)`. -/
def joinSep (sep : String) : List String → String
  | [] => ""
  | [x] => x
  | x :: xs => x ++ sep ++ joinSep sep xs

/-- Source `SkillOrchestrator.build_context`: shared prompt and tools first (with
an early reference bind), then each skill package in caller order, then
trimmed extra instructions and extra tools, then the final reference bind
and the blank-line join of the instruction sections. -/
def build_context (env : OrchestratorEnv) (skill_ids : Option (List String) := none)
    (extra_instructions : Option String := none)
    (extra_tools : Option (List Tool) := none)
    (include_shared : Bool := true) : AgentContext :=
  let acc0 : BuildAcc := ⟨[], [], [], []⟩
  let acc1 :=
    if include_shared then
      { acc0 with
        instructions_parts :=
          if env.shared_prompt ≠ "" then acc0.instructions_parts ++ [env.shared_prompt]
          else acc0.instructions_parts
        collected_tools :=
          bind_references_to_tools (acc0.collected_tools ++ env.shared_tools) }
    else acc0
  let acc2 :=
    match skill_ids with
    | some ids => ids.foldl (buildStep env.loadSkillPkg) acc1
    | none => acc1
  let parts3 :=
    match extra_instructions with
    | some s =>
      if s ≠ "" then
        let cleaned := pyStrip s
        if cleaned ≠ "" then acc2.instructions_parts ++ [cleaned]
        else acc2.instructions_parts
      else acc2.instructions_parts
    | none => acc2.instructions_parts
  let tools4 :=
    match extra_tools with
    | some ts => if ts ≠ [] then acc2.collected_tools ++ ts else acc2.collected_tools
    | none => acc2.collected_tools
  let tools5 := bind_references_to_tools tools4
  let instructions := pyStrip (joinSep "\n\n" (parts3.filter (fun p => p ≠ "")))
  { instructions := instructions
    tools := tools5
    references := acc2.collected_references
    skills := acc2.loaded_skills }

/-! ## Configuration values (the YAML document of the orchestrator) -/

/-- A YAML / Python value as handled by `_load_config`,
`_resolve_skill_ids` and `build_for_agent`. -/
inductive ConfigVal where
  | vstr (s : String)
  | vint (n : Int)
  | vfloat (q : ℚ)
  | vbool (b : Bool)
  | vlist (xs : List ConfigVal)
  | vdict (d : List (String × ConfigVal))
  | vnone
  deriving Repr, BEq

/-- Python truthiness. -/
def truthy : ConfigVal → Bool
  | .vstr s => s ≠ ""
  | .vint n => n ≠ 0
  | .vfloat q => q ≠ 0
  | .vbool b => b
  | .vlist xs => !xs.isEmpty
  | .vdict d => !d.isEmpty
  | .vnone => false

/-- Python `str(...)` on configuration scalars. The `float`, `list` and
`dict` cases stand in for Python's `repr`-style renderings, which no code
path of the claims reaches. -/
def pyStr : ConfigVal → String
  | .vstr s => s
  | .vint n => toString n
  | .vbool true => "True"
  | .vbool false => "False"
  | .vnone => "None"
  | .vfloat _ => "<float>"
  | .vlist _ => "<list>"
  | .vdict _ => "<dict>"

/-- Python iteration over a configuration value (`for x in v`): lists
yield elements, strings yield one-character strings, dicts yield keys;
iterating any other value raises `TypeError` in Python, outside the
configurations any claim quantifies over. -/
def pyIterVals : ConfigVal → List ConfigVal
  | .vlist xs => xs
  | .vstr s => s.toList.map (fun c => .vstr (String.mk [c]))
  | .vdict d => d.map (fun p => .vstr p.1)
  | _ => []

/-- Python `==` between a configuration value and a `str` (used by
`skill_id not in skill_ids`): only equal strings compare equal. -/
def pyEqStr (v : ConfigVal) (s : String) : Bool :=
  match v with
  | .vstr t => t = s
  | _ => false

/-- Python `float(...)` on the values `min_score` can hold; other types
raise in Python, outside the configurations any claim quantifies over. -/
def pyFloat : ConfigVal → ℚ
  | .vint n => (n : ℚ)
  | .vfloat q => q
  | .vbool b => if b then 1 else 0
  | _ => 0

/-- Truthiness of the optional message argument (`None` and `""` falsy). -/
def msgTruthy : Option String → Bool
  | some s => s ≠ ""
  | none => false

/-- Source `SkillOrchestrator._resolve_skill_ids`.  `routeFn` abstracts
`self.route_skills(message, limit=…, tags=…, min_score=…)`. -/
def resolve_skill_ids
    (routeFn : String → Option Int → Option ConfigVal → ℚ → List SkillMetadata)
    (skills_config : ConfigVal) (message : Option String)
    (fallback_skill_ids : Option (List String)) : Option (List String) :=
  let ids1 : List String :=
    match skills_config with
    | .vlist xs => xs.map pyStr
    | .vdict d =>
      let defaultsVal :=
        match dictGet? "default" d with
        | some v => if truthy v then v else .vlist []
        | none => .vlist []
      let base := (pyIterVals defaultsVal).map pyStr
      let auto_cfg :=
        match dictGet? "auto" d with
        | some v => if truthy v then v else .vdict []
        | none => .vdict []
      let withAuto :=
        if truthy auto_cfg && msgTruthy message then
          match auto_cfg with
          | .vdict ad =>
            if truthy ((dictGet? "enabled" ad).getD (.vbool true)) then
              let limit_value : Option Int :=
                match dictGet? "limit" ad with
                | some (.vint n) => some n
                | some (.vbool b) => some (if b then 1 else 0)
                | _ => none
              let tags := dictGet? "tags" ad
              let min_score : ℚ := pyFloat ((dictGet? "min_score" ad).getD (.vfloat 0))
              let routed := routeFn ((message.getD "")) limit_value tags min_score
              routed.foldl
                (fun acc md => if md.id ∈ acc then acc else acc ++ [md.id]) base
            else base
          | _ => base
        else base
      let additional : Option ConfigVal :=
        match auto_cfg with
        | .vdict ad => dictGet? "additional" ad
        | _ => none
      match additional with
      | some av =>
        if truthy av then
          (pyIterVals av).foldl
            (fun acc v =>
              if truthy v && !(acc.any (fun s => pyEqStr v s)) then acc ++ [pyStr v]
              else acc) withAuto
        else withAuto
      | none => withAuto
    | .vstr s =>
      if lowerStr s = "auto" && msgTruthy message then
        (routeFn (message.getD "") none none 0).map (fun md => md.id)
      else []
    | _ => []
  let ids2 :=
    if ids1 = [] then
      match fallback_skill_ids with
      | some fb => ids1 ++ fb
      | none => ids1
    else ids1
  if ids2 = [] then none else some ids2

/-- The dictionary under `agents` in the configuration document
(`config.get("agents", {})`); a non-mapping value would raise
`AttributeError` on the subsequent `.get`, which no claim's
configuration reaches. -/
def agentsDictOf (config : List (String × ConfigVal)) : List (String × ConfigVal) :=
  match (dictGet? "agents" config).getD (.vdict []) with
  | .vdict ad => ad
  | _ => []

/-- Python `config.get("agents", {}).get(agent_id, {})`: the agent's
configuration mapping, empty when the agent id is absent. -/
def agent_config_of (config : List (String × ConfigVal)) (agent_id : String) :
    List (String × ConfigVal) :=
  match dictGet? agent_id (agentsDictOf config) with
  | some (.vdict ac) => ac
  | _ => []

/-- Source `SkillOrchestrator.build_for_agent` over a loaded configuration
document: resolve the skill selection, the `include_shared` flag (caller
argument wins, else the agent flag, else `True`), merge agent-level and
caller-level extra instructions, and delegate to `build_context`. -/
def build_for_agent (env : OrchestratorEnv)
    (routeFn : String → Option Int → Option ConfigVal → ℚ → List SkillMetadata)
    (config : List (String × ConfigVal)) (agent_id : String)
    (message : Option String := none)
    (fallback_skill_ids : Option (List String) := none)
    (extra_instructions : Option String := none)
    (extra_tools : Option (List Tool) := none)
    (include_shared : Option Bool := none) : AgentContext :=
  let agent_config := agent_config_of config agent_id
  let skills_config := (dictGet? "skills" agent_config).getD .vnone
  let skill_ids := resolve_skill_ids routeFn skills_config message fallback_skill_ids
  let include_shared_flag := dictGet? "include_shared" agent_config
  let resolved_include_shared :=
    match include_shared with
    | some b => b
    | none =>
      match include_shared_flag with
      | none => true
      | some v => truthy v
  let agent_extra := pyStrip (pyStr ((dictGet? "extra_instructions" agent_config).getD (.vstr "")))
  let merged1 : List String := if agent_extra ≠ "" then [agent_extra] else []
  let merged2 : List String :=
    match extra_instructions with
    | some s =>
      if s ≠ "" then
        let cleaned := pyStrip s
        if cleaned ≠ "" then merged1 ++ [cleaned] else merged1
      else merged1
    | none => merged1
  let merged_tools : List Tool :=
    match extra_tools with
    | some ts => if ts ≠ [] then ts else []
    | none => []
  let extra_payload : Option String :=
    let j := joinSep "\n\n" merged2
    if j = "" then none else some j
  build_context env skill_ids extra_payload
    (if merged_tools = [] then none else some merged_tools)
    resolved_include_shared

/-! ## Validation loop (`src/core/validation_loop.py`) -/

/-- A Python exception as far as `validate_and_fix` is concerned: either a
pydantic `ValidationError` (carrying its rendered details) or any other
exception. Only the former is caught by the loop's `except` clause. -/
inductive PyError where
  | validation (details : String)
  | other (exc : String)
  deriving Repr, DecidableEq

/-- One parse attempt of `validate_and_fix`: with a transform function,
`schema.model_validate(transform_fn(current_response))`; otherwise
`schema.model_validate_json(current_response)`. -/
def parse_attempt {δ α : Type} (transform_fn : Option (String → Except PyError δ))
    (model_validate : δ → Except PyError α)
    (model_validate_json : String → Except PyError α)
    (current_response : String) : Except PyError α :=
  match transform_fn with
  | some f =>
    match f current_response with
    | .error e => .error e
    | .ok data => model_validate data
  | none => model_validate_json current_response

/-- The `while attempt <= self.max_retries` loop of `validate_and_fix`,
with `remaining = max_retries - attempt` as structural fuel. Returns the
outcome together with the number of parse attempts performed. A successful
parse returns it; a non-`ValidationError` exception propagates uncaught; a
`ValidationError` with no retries left is re-raised itself; otherwise the
correction prompt is built, the agent is invoked, and its output becomes
the current response. -/
def validateGo {α : Type} (parse : String → Except PyError α)
    (agentRun : String → String)
    (correction_prompt : String → String → Nat → String) :
    Nat → Nat → String → Except PyError α × Nat
  | remaining, attempt, current_response =>
    match parse current_response with
    | .ok v => (.ok v, 1)
    | .error (.other e) => (.error (.other e), 1)
    | .error (.validation e) =>
      match remaining with
      | 0 => (.error (.validation e), 1)
      | r + 1 =>
        let prompt := correction_prompt current_response e (attempt + 1)
        let rest := validateGo parse agentRun correction_prompt r (attempt + 1) (agentRun prompt)
        (rest.1, rest.2 + 1)

/-- Source `ValidationLoop.validate_and_fix`: run the loop from attempt 0 on the
raw response, with a retry budget of `max_retries` corrections. -/
def validate_and_fix {α : Type} (parse : String → Except PyError α)
    (agentRun : String → String)
    (correction_prompt : String → String → Nat → String)
    (max_retries : Nat) (response_text : String) : Except PyError α × Nat :=
  validateGo parse agentRun correction_prompt max_retries 0 response_text

/-! ## Helper lemmas -/

/-- The fuzzy scan stops at the first token whose similarity reaches the
threshold: it equals a `find?` over the token set. -/
theorem fuzzyScan_eq_find (ratio : String → String → ℚ) (term : String)
    (toks : List String) :
    fuzzyScan ratio term toks =
      match toks.find? (fun tok => decide ((82 / 100 : ℚ) ≤ ratio term tok)) with
      | some tok => (3 / 2) * ratio term tok
      | none => 0 := by
  induction toks with
  | nil => rfl
  | cons t ts ih =>
    by_cases h : (82 / 100 : ℚ) ≤ ratio term t
    · simp [fuzzyScan, List.find?, h]
    · simp [fuzzyScan, List.find?, h, ih]

/-- A fold whose step adds a per-element amount can be started anywhere. -/
theorem foldl_add_init {α : Type} (step : ℚ → α → ℚ)
    (h : ∀ s x, step s x = s + step 0 x) :
    ∀ (l : List α) (s : ℚ), l.foldl step s = s + l.foldl step 0 := by
  intro l
  induction l with
  | nil => intro s; simp
  | cons x xs ih =>
    intro s
    calc (x :: xs).foldl step s = xs.foldl step (step s x) := rfl
      _ = step s x + xs.foldl step 0 := ih _
      _ = (s + step 0 x) + xs.foldl step 0 := by rw [h s x]
      _ = s + ((x :: xs).foldl step 0) := by
            rw [show (x :: xs).foldl step 0 = xs.foldl step (step 0 x) from rfl,
              ih (step 0 x)]; ring

/-- A fold whose step adds a per-element amount is the sum of those amounts. -/
theorem foldl_add_eq_sum {α : Type} (step : ℚ → α → ℚ)
    (h : ∀ s x, step s x = s + step 0 x) (l : List α) :
    l.foldl step 0 = (l.map (fun x => step 0 x)).sum := by
  induction l with
  | nil => rfl
  | cons x xs ih =>
    calc (x :: xs).foldl step 0 = xs.foldl step (step 0 x) := rfl
      _ = step 0 x + xs.foldl step 0 := foldl_add_init step h xs _
      _ = step 0 x + (xs.map (fun x => step 0 x)).sum := by rw [ih]
      _ = ((x :: xs).map (fun x => step 0 x)).sum := by simp

/-- Step `scoreTermStep` adds a per-term amount to the running score. -/
theorem scoreTermStep_add (ratio : String → String → ℚ) (msg : String)
    (toks : List String) (s : ℚ) (term : String) :
    scoreTermStep ratio msg toks s term = s + scoreTermStep ratio msg toks 0 term := by
  unfold scoreTermStep
  repeat' split
  all_goals ring

/-- Step `scoreTagStep` adds a per-tag amount to the running score. -/
theorem scoreTagStep_add (msg : String) (tokens : List String) (s : ℚ) (tag : String) :
    scoreTagStep msg tokens s tag = s + scoreTagStep msg tokens 0 tag := by
  unfold scoreTagStep
  repeat' split
  all_goals ring

/-- Step `scoreDescStep` adds a per-keyword amount to the running score. -/
theorem scoreDescStep_add (tokens : List String) (s : ℚ) (kw : String) :
    scoreDescStep tokens s kw = s + scoreDescStep tokens 0 kw := by
  unfold scoreDescStep
  repeat' split
  all_goals ring

/-- Membership in a descending insertion. -/
theorem mem_insertDesc (x y : ℚ × SkillMetadata) (l : List (ℚ × SkillMetadata)) :
    x ∈ insertDesc y l ↔ x = y ∨ x ∈ l := by
  induction l with
  | nil => simp [insertDesc]
  | cons z zs ih =>
    by_cases h : z.1 ≤ y.1
    · simp [insertDesc, h]
    · simp [insertDesc, h, ih]
      tauto

/-- The descending sort preserves membership. -/
theorem mem_sortDesc (x : ℚ × SkillMetadata) (l : List (ℚ × SkillMetadata)) :
    x ∈ sortDesc l ↔ x ∈ l := by
  induction l with
  | nil => simp [sortDesc]
  | cons z zs ih => simp [sortDesc, mem_insertDesc, ih]

/-! ## Claim theorems -/

/-- C3. For every skill and every non-empty match term, the router's
per-term scoring adds exactly one contribution, chosen in priority order:
`3.0 + 0.05*len(term)` on a substring match of the lowercased message;
otherwise `2.5` on token-set membership; otherwise `1.5 * ratio` for the
first token of the message token set whose similarity ratio reaches
`0.82` (first qualifying token, not the best); otherwise `0` — and the
match-term component of `score` is the sum of these single per-term
bonuses. -/
theorem score_per_term_single_contribution
    (ratio : String → String → ℚ) (metadata : SkillMetadata)
    (normalized_message : String) (tokens token_set : List String) :
    score ratio metadata normalized_message tokens token_set =
      (metadata.match_terms.map (fun term =>
        if term = "" then 0
        else if isSubstring term normalized_message then
          3 + (5 / 100) * (term.length : ℚ)
        else if term ∈ token_set then 5 / 2
        else
          match token_set.find?
              (fun tok => decide ((82 / 100 : ℚ) ≤ ratio term tok)) with
          | some tok => (3 / 2) * ratio term tok
          | none => 0)).sum
      + metadata.tags.foldl (scoreTagStep normalized_message tokens) 0
      + (splitWs (lowerStr metadata.description)).foldl (scoreDescStep tokens) 0 := by
  have hbonus : ∀ term,
      scoreTermStep ratio normalized_message token_set 0 term =
        (if term = "" then 0
         else if isSubstring term normalized_message then
           3 + (5 / 100) * (term.length : ℚ)
         else if term ∈ token_set then 5 / 2
         else
           match token_set.find?
               (fun tok => decide ((82 / 100 : ℚ) ≤ ratio term tok)) with
           | some tok => (3 / 2) * ratio term tok
           | none => 0) := by
    intro term
    unfold scoreTermStep
    rw [fuzzyScan_eq_find]
    repeat' split
    all_goals ring
  simp only [score]
  rw [foldl_add_init (scoreDescStep tokens) (scoreDescStep_add tokens)]
  rw [foldl_add_init (scoreTagStep normalized_message tokens)
    (scoreTagStep_add normalized_message tokens) metadata.tags]
  rw [foldl_add_eq_sum (scoreTermStep ratio normalized_message token_set)
    (scoreTermStep_add ratio normalized_message token_set) metadata.match_terms]
  simp only [hbonus]

/-- The skills for which `route`'s filterMap keeps a scored pair. -/
theorem mem_route_filterMap (f : SkillMetadata → ℚ) (min_score : ℚ)
    (catalog : List SkillMetadata) (p : ℚ × SkillMetadata) :
    p ∈ catalog.filterMap (fun metadata =>
        if f metadata ≤ min_score then none else some (f metadata, metadata)) ↔
      p.2 ∈ catalog ∧ p.1 = f p.2 ∧ min_score < f p.2 := by
  rw [List.mem_filterMap]
  constructor
  · rintro ⟨a, ha, hfa⟩
    by_cases hle : f a ≤ min_score
    · rw [if_pos hle] at hfa
      cases hfa
    · rw [if_neg hle] at hfa
      cases hfa
      exact ⟨ha, rfl, lt_of_not_le hle⟩
  · rintro ⟨hmem, hfst, hlt⟩
    refine ⟨p.2, hmem, ?_⟩
    rw [if_neg (not_le_of_lt hlt), ← hfst]

/-- C4 (amended). For every catalog, non-empty message and `min_score`
value, `route` with no tag filter and no limit returns exactly the skills
whose computed score is strictly greater than `min_score`: a skill scoring
exactly `min_score` is excluded, and any skill scoring above it is
included. -/
theorem route_strict_min_score_boundary
    (ratio : String → String → ℚ) (catalog : List SkillMetadata)
    (message : String) (min_score : ℚ) (h : message ≠ "")
    (md : SkillMetadata) :
    md ∈ route ratio catalog message none none min_score ↔
      md ∈ catalog ∧
        min_score < score ratio md (lowerStr message)
          (tokenize (lowerStr message)) (dedupFirst (tokenize (lowerStr message))) := by
  unfold route
  rw [if_neg h]
  simp only [tagFilterSkip, Bool.false_eq_true, if_false, List.mem_map]
  constructor
  · rintro ⟨p, hp, hsnd⟩
    rw [mem_sortDesc] at hp
    rw [mem_route_filterMap] at hp
    exact hsnd ▸ ⟨hp.1, hp.2.2⟩
  · rintro ⟨hmem, hlt⟩
    refine ⟨(score ratio md (lowerStr message) (tokenize (lowerStr message))
      (dedupFirst (tokenize (lowerStr message))), md), ?_, rfl⟩
    rw [mem_sortDesc, mem_route_filterMap]
    exact ⟨hmem, rfl, hlt⟩

/-- A similarity function returning 0 everywhere (stand-in for
`SequenceMatcher.ratio` on dissimilar strings). -/
def ratio0 : String → String → ℚ := fun _ _ => 0

/-- A concrete catalog entry with no match terms, tags or description. -/
def mdAlpha : SkillMetadata :=
  { id := "alpha", name := "alpha", description := "", root := "skills/alpha" }

/-- C4 counterexample. The claim quantifies over every message and every
`min_score`: for the empty message and `min_score = -1`, the skill scores
`0 > -1` and should be included, but `route`'s empty-message short-circuit
returns the empty list — the claim as stated is false at this input. -/
theorem route_empty_message_negative_min_score_cex :
    route ratio0 [mdAlpha] "" none none (-1) = [] ∧
    score ratio0 mdAlpha (lowerStr "") (tokenize (lowerStr ""))
      (dedupFirst (tokenize (lowerStr ""))) = 0 ∧
    (-1 : ℚ) < 0 :=
  ⟨rfl, rfl, by decide⟩

/-- C4 witness: the boundary theorem applied at a concrete non-empty
message. -/
theorem route_strict_min_score_boundary_witness :
    mdAlpha ∈ route ratio0 [mdAlpha] "hi" none none (-1) ↔
      mdAlpha ∈ [mdAlpha] ∧
        (-1 : ℚ) < score ratio0 mdAlpha (lowerStr "hi")
          (tokenize (lowerStr "hi")) (dedupFirst (tokenize (lowerStr "hi"))) :=
  route_strict_min_score_boundary ratio0 [mdAlpha] "hi" (-1) (by decide) mdAlpha

/-- The merge loop's instruction sections: the initial sections followed by
each loaded package's non-empty instructions in selection order. -/
theorem foldl_buildStep_parts (f : String → SkillPackage) (ids : List String)
    (acc : BuildAcc) :
    (ids.foldl (buildStep f) acc).instructions_parts =
      acc.instructions_parts ++
        (ids.map (fun i => (f i).instructions)).filter (fun s => s ≠ "") := by
  induction ids generalizing acc with
  | nil => simp
  | cons i is ih =>
    rw [List.foldl_cons, ih]
    simp only [buildStep, List.map_cons, List.filter_cons]
    by_cases h : (f i).instructions = "" <;> simp [h]

/-- The merge loop's tools: the initial tools followed by each loaded
package's tools in selection order, concatenated without deduplication. -/
theorem foldl_buildStep_tools (f : String → SkillPackage) (ids : List String)
    (acc : BuildAcc) :
    (ids.foldl (buildStep f) acc).collected_tools =
      acc.collected_tools ++ (ids.map (fun i => (f i).tools)).flatten := by
  induction ids generalizing acc with
  | nil => simp
  | cons i is ih =>
    rw [List.foldl_cons, ih]
    simp only [buildStep, List.map_cons, List.flatten]
    by_cases h : (f i).tools = [] <;> simp [h]

/-- The merge loop's references: concatenated without deduplication. -/
theorem foldl_buildStep_references (f : String → SkillPackage) (ids : List String)
    (acc : BuildAcc) :
    (ids.foldl (buildStep f) acc).collected_references =
      acc.collected_references ++ (ids.map (fun i => (f i).references)).flatten := by
  induction ids generalizing acc with
  | nil => simp
  | cons i is ih =>
    rw [List.foldl_cons, ih]
    simp only [buildStep, List.map_cons, List.flatten]
    by_cases h : (f i).references = [] <;> simp [h]

/-- The merge loop's recorded skills: one metadata entry per selected id. -/
theorem foldl_buildStep_skills (f : String → SkillPackage) (ids : List String)
    (acc : BuildAcc) :
    (ids.foldl (buildStep f) acc).loaded_skills =
      acc.loaded_skills ++ ids.map (fun i => (f i).metadata) := by
  induction ids generalizing acc with
  | nil => simp
  | cons i is ih =>
    rw [List.foldl_cons, ih]
    simp [buildStep]

/-- Rebinding the reference-search tool rewrites one entrypoint but keeps
every tool's declared name and the list's length and order. -/
theorem bind_preserves_names (ts : List Tool) :
    (bind_references_to_tools ts).map Tool.name = ts.map Tool.name := by
  induction ts with
  | nil => rfl
  | cons t rest ih =>
    by_cases h : t.name = "search_skill_references"
    · cases he : t.entrypoint <;> simp [bind_references_to_tools, h, he]
    · simp [bind_references_to_tools, h, ih]

/-- C1. `build_context` with skill ids `[s1, …, sn]` produces:
instructions = the blank-line join, then trim, of the shared prompt (when
`include_shared` and non-empty) first, then each selected skill's
non-empty instructions in caller order, then the trimmed caller
`extra_instructions` last; tools = shared tools, then all skill tools in
selection order, then extra tools, concatenated with no deduplication
(the two reference binds rewrite the first matching tool's entrypoint but
preserve every name and position, as the name projection shows);
references = the concatenation of the skills' reference lists with no
deduplication. -/
theorem build_context_merge_order
    (env : OrchestratorEnv) (ids : List String) (extra_instructions : Option String)
    (extra_tools : Option (List Tool)) (include_shared : Bool) :
    (build_context env (some ids) extra_instructions extra_tools include_shared).instructions =
      pyStrip (joinSep "\n\n"
        ((if include_shared ∧ env.shared_prompt ≠ "" then [env.shared_prompt] else [])
          ++ (ids.map (fun i => (env.loadSkillPkg i).instructions)).filter (fun s => s ≠ "")
          ++ (match extra_instructions with
              | some s => if pyStrip s ≠ "" then [pyStrip s] else []
              | none => [])))
    ∧ (build_context env (some ids) extra_instructions extra_tools include_shared).tools =
        bind_references_to_tools
          ((if include_shared then bind_references_to_tools env.shared_tools else [])
            ++ (ids.map (fun i => (env.loadSkillPkg i).tools)).flatten
            ++ (match extra_tools with | some ts => ts | none => []))
    ∧ (build_context env (some ids) extra_instructions extra_tools include_shared).tools.map
          Tool.name =
        ((if include_shared then env.shared_tools else [])
          ++ (ids.map (fun i => (env.loadSkillPkg i).tools)).flatten
          ++ (match extra_tools with | some ts => ts | none => [])).map Tool.name
    ∧ (build_context env (some ids) extra_instructions extra_tools include_shared).references =
        (ids.map (fun i => (env.loadSkillPkg i).references)).flatten := by
  refine ⟨?_, ?_, ?_, ?_⟩
  · -- instructions
    simp only [build_context, foldl_buildStep_parts]
    cases extra_instructions with
    | none =>
      cases include_shared with
      | false => simp [List.filter_filter]
      | true =>
        by_cases hp : env.shared_prompt = "" <;>
          simp [hp, List.filter_append, List.filter_filter]
    | some s =>
      by_cases hs : s = ""
      · subst hs
        cases include_shared with
        | false => simp [List.filter_filter, show pyStrip "" = "" from rfl]
        | true =>
          by_cases hp : env.shared_prompt = "" <;>
            simp [hp, List.filter_append, List.filter_filter,
              show pyStrip "" = "" from rfl]
      · by_cases hc : pyStrip s = ""
        · cases include_shared with
          | false => simp [hs, hc, List.filter_append, List.filter_filter]
          | true =>
            by_cases hp : env.shared_prompt = "" <;>
              simp [hp, hs, hc, List.filter_append, List.filter_filter]
        · cases include_shared with
          | false => simp [hs, hc, List.filter_append, List.filter_filter]
          | true =>
            by_cases hp : env.shared_prompt = "" <;>
              simp [hp, hs, hc, List.filter_append, List.filter_filter,
                List.append_assoc]
  · -- tools (with the entrypoint rebinds made explicit)
    simp only [build_context, foldl_buildStep_tools]
    cases hT : extra_tools with
    | none =>
      cases include_shared with
      | false => simp
      | true => simp
    | some ts =>
      by_cases hts : ts = [] <;>
        cases include_shared <;>
          simp [hts, List.append_assoc]
  · -- tool names survive both rebinds in order, without deduplication
    simp only [build_context, foldl_buildStep_tools, bind_preserves_names]
    cases hT : extra_tools with
    | none =>
      cases include_shared with
      | false => simp
      | true => simp [List.map_append, bind_preserves_names]
    | some ts =>
      by_cases hts : ts = [] <;>
        cases include_shared <;>
          simp [hts, List.append_assoc, List.map_append, bind_preserves_names]
  · -- references: plain concatenation across skills
    simp only [build_context, foldl_buildStep_references]
    cases include_shared <;> simp

/-- A manifest whose id `"Bad-Id"` violates the slug pattern. -/
def badManifest : Manifest := { id := some "Bad-Id" }

/-- A skills root holding one directory with the non-slug manifest. -/
def fsBad : SkillsFS :=
  { dirs := [{ name := "badskill", manifest := some badManifest }]
    readInstructions := fun _ _ => none
    loadToolsDir := fun _ _ => []
    loadRefsDir := fun _ _ => [] }

/-- C5 counterexample. Registry discovery does not fail fast on a manifest
whose id violates the slug pattern: it admits the metadata entry with the
non-slug id `"Bad-Id"` into the catalog. -/
theorem registry_admits_non_slug_id_cex :
    initRegistry fsBad =
      .ok { catalog := [("Bad-Id",
              { id := "Bad-Id", name := "Bad-Id", description := "",
                root := "badskill" })],
            package_cache := [] } ∧
    isSlug "Bad-Id" = false := by
  exact ⟨rfl, by decide⟩

/-- C5 (amended). `_parse_manifest` requires only that the manifest carry
an `id` key: every manifest with an id parses successfully and that id —
slug or not — is admitted; the slug pattern is enforced only by the
pydantic `SkillMetadataModel` (never invoked during discovery), whose id
validation accepts no non-slug value. -/
theorem parse_manifest_id_only_requirement :
    (∀ dir data idv, data.id = some idv →
      ∃ md, parse_manifest dir data = .ok md ∧ md.id = idv)
    ∧ (∀ dir data, data.id = none →
        parse_manifest dir data = .error (.missingId dir))
    ∧ (∀ s, isSlug s = false → skillMetadataModelIdOk s = false) := by
  refine ⟨?_, ?_, ?_⟩
  · intro dir data idv h
    simp only [parse_manifest, h]
    exact ⟨_, rfl, rfl⟩
  · intro dir data h
    simp [parse_manifest, h]
  · intro s h
    simp [skillMetadataModelIdOk, h]

/-- C5 witness: the amended theorem applied to the concrete non-slug
manifest and id. -/
theorem parse_manifest_id_only_requirement_witness :
    (∃ md, parse_manifest "badskill" badManifest = .ok md ∧ md.id = "Bad-Id") ∧
    skillMetadataModelIdOk "Bad-Id" = false :=
  ⟨parse_manifest_id_only_requirement.1 "badskill" badManifest "Bad-Id" rfl,
   parse_manifest_id_only_requirement.2.2 "Bad-Id" (by decide)⟩

/-- The shared copy of the reference-search tool, as loaded from
`src/shared/tools/references.py` (`TOOLS = [search_skill_references]`). -/
def searchToolShared : Tool :=
  { name := "search_skill_references", entrypoint := some .searchOrig }

/-- A deployment with the search tool among the shared tools (the default
wiring of `core/__init__.py`) and one skill carrying a reference file. -/
def envC6 : OrchestratorEnv :=
  { shared_prompt := "Shared Operating Principles"
    shared_tools := [searchToolShared]
    loadSkillPkg := fun i =>
      { metadata := { id := i, name := i, description := "", root := "skills/" ++ i }
        instructions := "Agno Documentation Skill"
        tools := []
        references := ["skills/" ++ i ++ "/refs/README.md"] } }

/-- C6 (code bug). When the shared tools already contain
`search_skill_references`, `build_context` binds it once during the
shared-asset step and again at the end, so the final entrypoint is a
wrapper around a wrapper; the outer wrapper calls the inner one with
`skill_references=...`, a keyword `wrapped_fn(agent, query)` does not
accept — invoking the tool raises `TypeError` instead of searching the
complete reference list.  A single bind (the intended behaviour) does
deliver the complete reference list to the original function. -/
theorem shared_search_tool_double_bind_type_error :
    (build_context envC6 (some ["agno_docs"]) none none true).tools =
      [{ name := "search_skill_references",
         entrypoint := some (.wrapped (.wrapped .searchOrig)) }] ∧
    (build_context envC6 (some ["agno_docs"]) none none true).references =
      ["skills/agno_docs/refs/README.md"] ∧
    invokeEntrypoint (build_context envC6 (some ["agno_docs"]) none none true).references
      (.wrapped (.wrapped .searchOrig)) "query" none = .typeError ∧
    invokeEntrypoint ["skills/agno_docs/refs/README.md"]
      (.wrapped .searchOrig) "query" none =
      .ranSearch "query" (some ["skills/agno_docs/refs/README.md"]) :=
  ⟨rfl, rfl, rfl, rfl⟩

/-- When every parse fails with a validation error, the loop performs
`remaining + 1` parse attempts from any state and ends in a validation
error. -/
theorem validateGo_all_fail {α : Type} (parse : String → Except PyError α)
    (agentRun : String → String) (cp : String → String → Nat → String)
    (hfail : ∀ s, ∃ d, parse s = .error (.validation d)) :
    ∀ (r a : Nat) (cur : String), ∃ d,
      validateGo parse agentRun cp r a cur = (.error (.validation d), r + 1) := by
  intro r
  induction r with
  | zero =>
    intro a cur
    obtain ⟨d, hd⟩ := hfail cur
    exact ⟨d, by simp [validateGo, hd]⟩
  | succ n ih =>
    intro a cur
    obtain ⟨d, hd⟩ := hfail cur
    obtain ⟨d', hrec⟩ := ih (a + 1) (agentRun (cp cur d (a + 1)))
    refine ⟨d', ?_⟩
    simp [validateGo, hd, hrec]

/-- C2. With `max_retries ≥ 0` corrections allowed, if every parse of the
current response fails schema validation (including every corrected
response from the agent), `validate_and_fix` performs exactly
`max_retries + 1` parse attempts (one initial plus `max_retries`
corrections) and ends by re-raising a validation error itself, not a
wrapper; and whenever the loop returns a value, that value came from a
successful parse — it never returns a partially-valid or null result. -/
theorem validate_and_fix_retry_budget {α : Type} :
    (∀ (parse : String → Except PyError α) (agentRun : String → String)
        (cp : String → String → Nat → String) (max_retries : Nat) (resp : String),
      (∀ s, ∃ d, parse s = .error (.validation d)) →
      ∃ d, validate_and_fix parse agentRun cp max_retries resp =
        (.error (.validation d), max_retries + 1))
    ∧ (∀ (parse : String → Except PyError α) (agentRun : String → String)
          (cp : String → String → Nat → String) (r a : Nat) (cur : String)
          (v : α) (n : Nat),
        validateGo parse agentRun cp r a cur = (.ok v, n) →
        ∃ s, parse s = .ok v) := by
  constructor
  · intro parse agentRun cp max_retries resp hfail
    exact validateGo_all_fail parse agentRun cp hfail max_retries 0 resp
  · intro parse agentRun cp r
    induction r with
    | zero =>
      intro a cur v n h
      rw [validateGo] at h
      cases hp : parse cur with
      | ok w =>
        rw [hp] at h
        cases h
        exact ⟨cur, hp⟩
      | error e =>
        cases e <;> rw [hp] at h <;> cases h
    | succ m ih =>
      intro a cur v n h
      rw [validateGo] at h
      cases hp : parse cur with
      | ok w =>
        rw [hp] at h
        cases h
        exact ⟨cur, hp⟩
      | error e =>
        cases e with
        | validation d =>
          rw [hp] at h
          have h1 : (validateGo parse agentRun cp m (a + 1)
              (agentRun (cp cur d (a + 1)))).1 = .ok v := by
            have := congrArg Prod.fst h
            simpa using this
          exact ih (a + 1) (agentRun (cp cur d (a + 1))) v _
            (Prod.ext h1 rfl)
        | other e => rw [hp] at h; cases h

/-- C2 witness: the scenario with `max_retries = 1`, a schema that rejects
every payload, and an agent that always returns the same invalid payload:
exactly 2 parse attempts, then the validation error. -/
theorem validate_and_fix_retry_budget_witness :
    ∃ d, validate_and_fix
        (fun _ => (.error (.validation "answer: too short; confidence: at most 1.0") :
          Except PyError Unit))
        (fun _ => "same invalid payload")
        (fun _ _ _ => "correction prompt") 1
        "same invalid payload" =
      (.error (.validation d), 2) :=
  validate_and_fix_retry_budget.1
    (fun _ => .error (.validation "answer: too short; confidence: at most 1.0"))
    (fun _ => "same invalid payload")
    (fun _ _ _ => "correction prompt") 1
    "same invalid payload"
    (fun _ => ⟨"answer: too short; confidence: at most 1.0", rfl⟩)

/-- C10. Only `ValidationError` triggers the correction loop: when the
caller-supplied transform function raises any non-`ValidationError`
exception on the current response, that exception propagates from the
current attempt after exactly one parse, for every agent — no correction
prompt is consumed and the agent is never invoked (the result does not
depend on `agentRun`). -/
theorem transform_exception_propagates {δ α : Type}
    (f : String → Except PyError δ) (mv : δ → Except PyError α)
    (mvj : String → Except PyError α) (agentRun : String → String)
    (cp : String → String → Nat → String) (r a : Nat) (cur exc : String)
    (h : f cur = .error (.other exc)) :
    validateGo (parse_attempt (some f) mv mvj) agentRun cp r a cur =
      (.error (.other exc), 1) := by
  rw [validateGo]
  simp [parse_attempt, h]

/-- C10 witness: a transform raising `KeyError` on the first attempt
propagates at once, with one parse attempt. -/
theorem transform_exception_propagates_witness :
    validateGo (parse_attempt (some (fun _ => (.error (.other "KeyError: answer") :
        Except PyError Nat)))
        (fun n => .ok n) (fun _ => .ok 0))
      (fun _ => "corrected") (fun _ _ _ => "prompt") 2 0 "not json" =
      (.error (.other "KeyError: answer"), 1) :=
  transform_exception_propagates
    (fun _ => .error (.other "KeyError: answer")) (fun n => .ok n) (fun _ => .ok 0)
    (fun _ => "corrected") (fun _ _ _ => "prompt") 2 0 "not json"
    "KeyError: answer" rfl

/-- Appending a fresh cache entry makes it findable when the key was
absent before. -/
theorem dictGet?_append_self {α : Type} (k : String) (v : α) (l : List (String × α))
    (h : dictGet? k l = none) : dictGet? k (l ++ [(k, v)]) = some v := by
  induction l with
  | nil => simp [dictGet?, List.find?]
  | cons p rest ih =>
    by_cases hk : p.1 = k
    · exfalso
      rw [dictGet?, List.find?_cons_of_pos _ (by simp [hk])] at h
      simp at h
    · rw [dictGet?, List.cons_append, List.find?_cons_of_neg _ (by simp [hk])]
      rw [dictGet?, List.find?_cons_of_neg _ (by simp [hk])] at h
      exact ih h

/-- C7. A second `load_skill` for an id just loaded returns the very same
cached package and state, for any filesystem contents — the filesystem is
not consulted again; `reload` empties the package cache (and rebuilds the
catalog from disk alone), after which a fresh load of an id resolves its
package from the current on-disk instructions, tools and references. -/
theorem load_skill_cache_and_reload :
    (∀ (fs : SkillsFS) (st : RegistryState) (id : String) (pkg : SkillPackage)
        (st' : RegistryState),
      load_skill fs st id = .ok (pkg, st') →
      ∀ fs' : SkillsFS, load_skill fs' st' id = .ok (pkg, st'))
    ∧ (∀ (fs : SkillsFS) (st : RegistryState) (r : RegistryState),
        registryReload fs st = .ok r → r.package_cache = [])
    ∧ (∀ (fs : SkillsFS) (st r : RegistryState) (id : String) (md : SkillMetadata)
          (text : String),
        registryReload fs st = .ok r →
        dictGet? id r.catalog = some md →
        fs.readInstructions md.root md.instructions_relpath = some text →
        load_skill fs r id = .ok
          ({ metadata := md, instructions := pyStrip text,
             tools := fs.loadToolsDir md.root md.tools_relpath,
             references := fs.loadRefsDir md.root md.refs_relpath },
           { r with package_cache := r.package_cache ++
              [(id, { metadata := md, instructions := pyStrip text,
                      tools := fs.loadToolsDir md.root md.tools_relpath,
                      references := fs.loadRefsDir md.root md.refs_relpath })] })) := by
  refine ⟨?_, ?_, ?_⟩
  · intro fs st id pkg st' h fs'
    rw [load_skill] at h
    cases hc : dictGet? id st.package_cache with
    | some pkg0 =>
      rw [hc] at h
      cases h
      rw [load_skill, hc]
    | none =>
      rw [hc] at h
      cases hcat : dictGet? id st.catalog with
      | none =>
        simp only [hcat] at h
        cases h
      | some md =>
        cases hread : fs.readInstructions md.root md.instructions_relpath with
        | none =>
          simp only [hcat, hread] at h
          cases h
        | some text =>
          simp only [hcat, hread, Except.ok.injEq, Prod.mk.injEq] at h
          obtain ⟨hpkg, hst⟩ := h
          subst hpkg
          subst hst
          rw [load_skill]
          rw [dictGet?_append_self id _ st.package_cache hc]
  · intro fs st r h
    rw [registryReload, initRegistry] at h
    cases hd : discoverRun fs with
    | ok cat => rw [hd] at h; cases h; rfl
    | error e => rw [hd] at h; cases h
  · intro fs st r id md text hrel hcat hread
    have hcache : r.package_cache = [] := by
      rw [registryReload, initRegistry] at hrel
      cases hd : discoverRun fs with
      | ok cat => rw [hd] at hrel; cases hrel; rfl
      | error e => rw [hd] at hrel; cases hrel
    rw [load_skill, hcache]
    simp only [show dictGet? id ([] : List (String × SkillPackage)) = none from rfl,
      hcat, hread]

/-- Metadata of the demo skill on disk. -/
def mdWeb : SkillMetadata :=
  { id := "web_search", name := "web_search", description := "", root := "web_search" }

/-- A skills root with the single demo skill. -/
def fsDemo : SkillsFS :=
  { dirs := [{ name := "web_search", manifest := some { id := some "web_search" } }]
    readInstructions := fun root rel =>
      if root = "web_search" && rel = "SKILL.md" then some "Web Search Skill\n" else none
    loadToolsDir := fun _ _ => []
    loadRefsDir := fun _ _ => [] }

/-- The same root after the instructions file changed on disk. -/
def fsDemoChanged : SkillsFS :=
  { fsDemo with
    readInstructions := fun root rel =>
      if root = "web_search" && rel = "SKILL.md" then some "Updated Skill" else none }

/-- The registry state right after discovery of the demo root. -/
def stDemo : RegistryState := { catalog := [("web_search", mdWeb)], package_cache := [] }

/-- The package resolved from the original on-disk contents. -/
def pkgWeb : SkillPackage :=
  { metadata := mdWeb, instructions := "Web Search Skill", tools := [], references := [] }

/-- The registry state after the first `load_skill`. -/
def stDemoLoaded : RegistryState :=
  { catalog := [("web_search", mdWeb)], package_cache := [("web_search", pkgWeb)] }

/-- C7 witness: the first load caches the package; a second load against a
*changed* filesystem still returns the cached original; after `reload` the
fresh load reflects the changed on-disk instructions. -/
theorem load_skill_cache_and_reload_witness :
    load_skill fsDemoChanged stDemoLoaded "web_search" = .ok (pkgWeb, stDemoLoaded) ∧
    load_skill fsDemoChanged stDemo "web_search" = .ok
      ({ metadata := mdWeb, instructions := pyStrip "Updated Skill",
         tools := fsDemoChanged.loadToolsDir mdWeb.root mdWeb.tools_relpath,
         references := fsDemoChanged.loadRefsDir mdWeb.root mdWeb.refs_relpath },
       { stDemo with package_cache := stDemo.package_cache ++
          [("web_search", { metadata := mdWeb, instructions := pyStrip "Updated Skill",
                            tools := fsDemoChanged.loadToolsDir mdWeb.root mdWeb.tools_relpath,
                            references := fsDemoChanged.loadRefsDir mdWeb.root mdWeb.refs_relpath })] }) := by
  constructor
  · exact load_skill_cache_and_reload.1 fsDemo stDemo "web_search" pkgWeb stDemoLoaded
      rfl fsDemoChanged
  · exact load_skill_cache_and_reload.2.2 fsDemoChanged stDemoLoaded stDemo "web_search"
      mdWeb "Updated Skill" rfl rfl rfl

/-- The scenario's skills configuration:
`{default: [], auto: {enabled: true, min_score: 0.0}}`. -/
def c8AutoCfg : ConfigVal :=
  .vdict [("default", .vlist []),
          ("auto", .vdict [("enabled", .vbool true), ("min_score", .vfloat 0)])]

/-- A configuration document declaring the scenario's agent. -/
def c8Config : List (String × ConfigVal) :=
  [("agents", .vdict [("agent-x", .vdict [("skills", c8AutoCfg)])])]

/-- With no message, the scenario's auto configuration resolves to the
caller-supplied fallback (or nothing). -/
theorem resolve_skill_ids_c8
    (routeFn : String → Option Int → Option ConfigVal → ℚ → List SkillMetadata)
    (fallback : Option (List String)) :
    resolve_skill_ids routeFn c8AutoCfg none fallback =
      match fallback with
      | none => none
      | some fb => if fb = [] then none else some fb := by
  cases fallback <;> rfl

/-- C8. For a mapping skills configuration, auto-routing fires only when a
message is supplied: with no message the resolution never consults the
router (the result is the same for every routing function); in particular
for `skills: {default: [], auto: {enabled: true, min_score: 0.0}}` and no
message, both `_resolve_skill_ids` and `build_for_agent` fall through to
the caller-supplied fallback skill ids (or an empty selection). -/
theorem auto_routing_requires_message :
    (∀ (routeFn routeFn' : String → Option Int → Option ConfigVal → ℚ → List SkillMetadata)
        (d : List (String × ConfigVal)) (fallback : Option (List String)),
      resolve_skill_ids routeFn (.vdict d) none fallback =
        resolve_skill_ids routeFn' (.vdict d) none fallback)
    ∧ (∀ (routeFn : String → Option Int → Option ConfigVal → ℚ → List SkillMetadata)
          (fallback : Option (List String)),
        resolve_skill_ids routeFn c8AutoCfg none fallback =
          match fallback with
          | none => none
          | some fb => if fb = [] then none else some fb)
    ∧ (∀ (env : OrchestratorEnv)
          (routeFn : String → Option Int → Option ConfigVal → ℚ → List SkillMetadata)
          (fallback : Option (List String)),
        build_for_agent env routeFn c8Config "agent-x" none fallback none none none =
          build_context env
            (match fallback with
             | none => none
             | some fb => if fb = [] then none else some fb) none none true) := by
  refine ⟨?_, resolve_skill_ids_c8, ?_⟩
  · intro routeFn routeFn' d fallback
    simp [resolve_skill_ids, msgTruthy]
  · intro env routeFn fallback
    show build_context env (resolve_skill_ids routeFn c8AutoCfg none fallback)
      none none true = _
    rw [resolve_skill_ids_c8]

/-- Resolution of the skills configuration `None` (key absent): straight
to the fallback. -/
theorem resolve_skill_ids_vnone
    (routeFn : String → Option Int → Option ConfigVal → ℚ → List SkillMetadata)
    (message : Option String) (fallback : Option (List String)) :
    resolve_skill_ids routeFn .vnone message fallback =
      match fallback with
      | none => none
      | some fb => if fb = [] then none else some fb := by
  cases fallback with
  | none => rfl
  | some fb => simp [resolve_skill_ids]

/-- Behaviour of `build_for_agent` against an empty configuration document: fallback
skill selection, trimmed caller extras, `include_shared` defaulting to
true unless the caller overrides it. -/
theorem build_for_agent_empty_config (env : OrchestratorEnv)
    (routeFn : String → Option Int → Option ConfigVal → ℚ → List SkillMetadata)
    (agent_id : String) (m : Option String) (fb : Option (List String))
    (eI : Option String) (eT : Option (List Tool)) (inc : Option Bool) :
    build_for_agent env routeFn [] agent_id m fb eI eT inc =
      build_context env
        (match fb with | none => none | some l => if l = [] then none else some l)
        (match eI with
         | some s => if pyStrip s = "" then none else some (pyStrip s)
         | none => none)
        (match eT with | some ts => if ts = [] then none else some ts | none => none)
        (inc.getD true) := by
  simp only [build_for_agent,
    show agent_config_of [] agent_id = [] from rfl,
    show dictGet? "skills" ([] : List (String × ConfigVal)) = none from rfl,
    show dictGet? "include_shared" ([] : List (String × ConfigVal)) = none from rfl,
    show dictGet? "extra_instructions" ([] : List (String × ConfigVal)) = none from rfl,
    Option.getD_none, show pyStr (ConfigVal.vstr "") = "" from rfl,
    show pyStrip "" = "" from rfl, ne_eq, not_true_eq_false, if_false,
    show joinSep "\n\n" ([] : List String) = "" from rfl,
    resolve_skill_ids_vnone]
  cases inc with
  | none =>
    cases eI with
    | none =>
      cases eT with
      | none => simp [joinSep]
      | some ts => by_cases hts : ts = [] <;> simp [hts, joinSep]
    | some s =>
      by_cases hs : s = ""
      · subst hs
        cases eT with
        | none => simp [joinSep, show pyStrip "" = "" from rfl]
        | some ts =>
          by_cases hts : ts = [] <;>
            simp [hts, joinSep, show pyStrip "" = "" from rfl]
      · by_cases hc : pyStrip s = ""
        · cases eT with
          | none => simp [hs, hc, joinSep]
          | some ts => by_cases hts : ts = [] <;> simp [hs, hc, hts, joinSep]
        · cases eT with
          | none => simp [hs, hc, joinSep]
          | some ts => by_cases hts : ts = [] <;> simp [hs, hc, hts, joinSep]
  | some b =>
    cases eI with
    | none =>
      cases eT with
      | none => simp [joinSep]
      | some ts => by_cases hts : ts = [] <;> simp [hts, joinSep]
    | some s =>
      by_cases hs : s = ""
      · subst hs
        cases eT with
        | none => simp [joinSep, show pyStrip "" = "" from rfl]
        | some ts =>
          by_cases hts : ts = [] <;>
            simp [hts, joinSep, show pyStrip "" = "" from rfl]
      · by_cases hc : pyStrip s = ""
        · cases eT with
          | none => simp [hs, hc, joinSep]
          | some ts => by_cases hts : ts = [] <;> simp [hs, hc, hts, joinSep]
        · cases eT with
          | none => simp [hs, hc, joinSep]
          | some ts => by_cases hts : ts = [] <;> simp [hs, hc, hts, joinSep]

/-- C9. When the agent id is absent from the `agents` mapping (or the
document is empty), `build_for_agent` raises no lookup error: it behaves
exactly as with an empty agent configuration — the skill selection falls
through to the caller's fallback ids (or none), the trimmed caller extra
instructions are the only extras, `include_shared` defaults to true unless
the caller overrides it, and a context is returned. -/
theorem missing_agent_id_falls_back (env : OrchestratorEnv)
    (routeFn : String → Option Int → Option ConfigVal → ℚ → List SkillMetadata)
    (config : List (String × ConfigVal)) (agent_id : String) (m : Option String)
    (fb : Option (List String)) (eI : Option String) (eT : Option (List Tool))
    (inc : Option Bool)
    (h : dictGet? agent_id (agentsDictOf config) = none) :
    build_for_agent env routeFn config agent_id m fb eI eT inc =
      build_for_agent env routeFn [] agent_id m fb eI eT inc
    ∧ build_for_agent env routeFn config agent_id m fb eI eT inc =
      build_context env
        (match fb with | none => none | some l => if l = [] then none else some l)
        (match eI with
         | some s => if pyStrip s = "" then none else some (pyStrip s)
         | none => none)
        (match eT with | some ts => if ts = [] then none else some ts | none => none)
        (inc.getD true) := by
  have hac : agent_config_of config agent_id = [] := by
    unfold agent_config_of
    rw [h]
  have h1 : build_for_agent env routeFn config agent_id m fb eI eT inc =
      build_for_agent env routeFn [] agent_id m fb eI eT inc := by
    simp only [build_for_agent]
    rw [hac]
    rfl
  exact ⟨h1, h1.trans (build_for_agent_empty_config env routeFn agent_id m fb eI eT inc)⟩

/-- A minimal deployment for the C9 witness. -/
def envLite : OrchestratorEnv :=
  { shared_prompt := ""
    shared_tools := []
    loadSkillPkg := fun i =>
      { metadata := { id := i, name := i, description := "", root := i }
        instructions := "", tools := [], references := [] } }

/-- A configuration document that knows only some other agent. -/
def c9Config : List (String × ConfigVal) :=
  [("agents", .vdict [("other-agent", .vdict [])])]

/-- C9 witness: the fallback behaviour at a concrete unknown agent id. -/
theorem missing_agent_id_falls_back_witness :
    build_for_agent envLite (fun _ _ _ _ => []) c9Config "agent-x" none
        (some ["web_search"]) (some "  Be brief.  ") none none =
      build_for_agent envLite (fun _ _ _ _ => []) [] "agent-x" none
        (some ["web_search"]) (some "  Be brief.  ") none none
    ∧ build_for_agent envLite (fun _ _ _ _ => []) c9Config "agent-x" none
        (some ["web_search"]) (some "  Be brief.  ") none none =
      build_context envLite
        (match some ["web_search"] with
         | none => none
         | some l => if l = [] then none else some l)
        (match some "  Be brief.  " with
         | some s => if pyStrip s = "" then none else some (pyStrip s)
         | none => none)
        (match (none : Option (List Tool)) with
         | some ts => if ts = [] then none else some ts
         | none => none)
        ((none : Option Bool).getD true) :=
  missing_agent_id_falls_back envLite (fun _ _ _ _ => []) c9Config "agent-x" none
    (some ["web_search"]) (some "  Be brief.  ") none none rfl

end AgnoOS
